import Mathlib

/-!
Verification development for the sublimity-rpc controller
(`src/controller.ts`).  The controller's closure state (object map,
function registry, invocation tracker, deferred completion primitives and
the finalization registry) is embedded as an explicit `State` record, and
each controller operation is translated into a state-passing function.

Modelling conventions, stated once:
* `crypto.randomUUID()` is modelled by a counter `nextMsg` rendered through
  `uuid`; freshness facts that the real UUID generator provides are taken
  as explicit hypotheses where a theorem needs them.
* JavaScript heap objects (functions, `AbortSignal`s, stubs, abort
  adapters) are identified by natural numbers; their mutable expando
  properties (`__srpcId`, `__srpcAbortController`, attached abort
  listeners) live in a heap map.  `WeakRef.deref` is modelled by a set
  `dead` of collected object identities.
* The completion primitive `createDeferred` comes from the external
  `async-primitives` package, outside this repository; its behaviour
  (settle-once, reject with a cancellation-kind error when the attached
  signal fires) is modelled from the spec's description of the
  environment's concurrency runtime.
* Log messages keep their leading literal text; interpolated payloads
  other than identifiers are elided, since no property depends on them.
* A freshly constructed JavaScript `Error` carries a runtime-generated
  stack string; that environment value is modelled as absent (`none`).
-/

/-- JavaScript values crossing the controller boundary, as far as the
controller inspects them: primitives, heap object references, and the two
wire descriptor shapes produced by the marshaller. -/
inductive Value where
  | null
  | undef
  | num (n : Int)
  | str (s : String)
  | obj (o : Nat)
  | funDesc (id : String)
  | abortDesc (id : String)
deriving DecidableEq

/-- A transportable error record: `name`, `message`, optional `stack`. -/
structure ErrObj where
  name : String
  message : String
  stack : Option String := none
deriving DecidableEq

/-- The five wire message kinds of `SublimityRpcMessage`. -/
inductive Message where
  | invoke (messageId functionId : String) (args : List Value) (oneWay : Bool)
  | result (messageId : String) (result : Value)
  | error (messageId : String) (error : ErrObj)
  | purge (messageId functionId : String)
  | none (messageId : String)
deriving DecidableEq

/-- The shared `messageId` header field of a message. -/
def Message.mid : Message → String
  | .invoke m _ _ _ => m
  | .result m _ => m
  | .error m _ => m
  | .purge m _ => m
  | .none m => m

/-- The `kind` discriminator of a message, as the string the source
interpolates into the `Unexpected response` text. -/
def Message.kindStr : Message → String
  | .invoke _ _ _ _ => "invoke"
  | .result _ _ => "result"
  | .error _ _ => "error"
  | .purge _ _ => "purge"
  | .none _ => "none"

/-- Mutable expando state of one heap object: the `__srpcId` marker, the
`instanceof` facts the controller tests, the `__srpcAbortController` of an
abort adapter (recorded by the identity of the controller's signal
object), and the identifier captured by an attached `handleAbort`
listener. -/
structure ObjData where
  srpcId : Option String := none
  isFunction : Bool := false
  isAbortSignal : Bool := false
  abortController : Option Nat := none
  abortListenerId : Option String := none
deriving DecidableEq

/-- Settlement state of a deferred completion primitive. -/
inductive DStatus where
  | pending
  | resolved (v : Value)
  | rejected (e : ErrObj)
deriving DecidableEq

/-- One deferred from `createDeferred(signal)`: the optionally attached
`AbortSignal` object and the settlement status. -/
structure DeferredState where
  signal : Option Nat := Option.none
  status : DStatus := DStatus.pending
deriving DecidableEq

/-- Observable side effects of a controller operation, in order: calls of
the configured send callback, log lines, and invocations of a target
procedure. -/
inductive Event where
  | send (m : Message)
  | warn (s : String)
  | debug (s : String)
  | call (o : Nat) (args : List Value)
deriving DecidableEq

/-- Closure state of one controller instance. -/
structure State where
  heap : List (Nat × ObjData) := []
  nextObj : Nat := 0
  nextMsg : Nat := 0
  nextDef : Nat := 0
  objectMap : List (String × Nat) := []
  dead : List Nat := []
  functionRegistry : List (String × Nat) := []
  invocations : List (String × Nat) := []
  deferreds : List (Nat × DeferredState) := []
  frArmed : List (Nat × String) := []
deriving DecidableEq

/-- Lookup in an association list (JavaScript `Map.get`). -/
def aget {κ α : Type} [DecidableEq κ] (k : κ) : List (κ × α) → Option α
  | [] => Option.none
  | p :: t => if p.1 = k then some p.2 else aget k t

/-- Insert or replace in an association list (JavaScript `Map.set`). -/
def aset {κ α : Type} [DecidableEq κ] (k : κ) (v : α) : List (κ × α) → List (κ × α)
  | [] => [(k, v)]
  | p :: t => if p.1 = k then (k, v) :: t else p :: aset k v t

/-- Remove a key from an association list (JavaScript `Map.delete`). -/
def adel {κ α : Type} [DecidableEq κ] (k : κ) : List (κ × α) → List (κ × α)
  | [] => []
  | p :: t => if p.1 = k then adel k t else p :: adel k t

theorem aget_aset_self {κ α : Type} [DecidableEq κ] (k : κ) (v : α) (l : List (κ × α)) :
    aget k (aset k v l) = some v := by
  induction l with
  | nil => simp [aset, aget]
  | cons p t ih =>
    by_cases h : p.1 = k
    · simp [aset, aget, h]
    · simp [aset, aget, h, ih]

theorem aget_aset_ne {κ α : Type} [DecidableEq κ] {k k' : κ} (v : α) (l : List (κ × α))
    (h : k' ≠ k) : aget k' (aset k v l) = aget k' l := by
  induction l with
  | nil => simp [aset, aget, Ne.symm h]
  | cons p t ih =>
    by_cases hp : p.1 = k
    · subst hp
      simp [aset, aget, Ne.symm h, h]
    · by_cases hp' : p.1 = k'
      · simp [aset, aget, hp, hp', h]
      · simp [aset, aget, hp, hp', ih]

theorem aget_adel_self {κ α : Type} [DecidableEq κ] (k : κ) (l : List (κ × α)) :
    aget k (adel k l) = Option.none := by
  induction l with
  | nil => simp [adel, aget]
  | cons p t ih =>
    by_cases h : p.1 = k
    · simp [adel, h, ih]
    · simp [adel, aget, h, ih]

theorem aget_adel_ne {κ α : Type} [DecidableEq κ] {k k' : κ} (l : List (κ × α))
    (h : k' ≠ k) : aget k' (adel k l) = aget k' l := by
  induction l with
  | nil => simp [adel]
  | cons p t ih =>
    by_cases hp : p.1 = k
    · subst hp
      simp [adel, aget, Ne.symm h, ih]
    · simp [adel, aget, hp, ih]

theorem adel_fresh {κ α : Type} [DecidableEq κ] {k : κ} {l : List (κ × α)}
    (h : aget k l = Option.none) : adel k l = l := by
  induction l with
  | nil => simp [adel]
  | cons p t ih =>
    by_cases hp : p.1 = k
    · simp [aget, hp] at h
    · simp [aget, hp] at h
      simp [adel, hp, ih h]

theorem adel_aset_fresh {κ α : Type} [DecidableEq κ] {k : κ} (v : α) {l : List (κ × α)}
    (h : aget k l = Option.none) : adel k (aset k v l) = l := by
  induction l with
  | nil => simp [aset, adel]
  | cons p t ih =>
    by_cases hp : p.1 = k
    · simp [aget, hp] at h
    · simp [aget, hp] at h
      simp [aset, adel, hp, ih h]

theorem aget_mem {κ α : Type} [DecidableEq κ] {k : κ} {v : α} {l : List (κ × α)}
    (h : aget k l = some v) : (k, v) ∈ l := by
  induction l with
  | nil => simp [aget] at h
  | cons p t ih =>
    by_cases hp : p.1 = k
    · simp [aget, hp] at h
      have : (k, v) = p := by
        cases p
        simp_all
      rw [this]
      exact List.mem_cons_self _ _
    · simp [aget, hp] at h
      exact List.mem_cons_of_mem _ (ih h)

theorem aget_append_of_none {κ α : Type} [DecidableEq κ] {k : κ} {l : List (κ × α)}
    (l' : List (κ × α)) (h : aget k l = Option.none) :
    aget k (l ++ l') = aget k l' := by
  induction l with
  | nil => simp
  | cons p t ih =>
    by_cases hp : p.1 = k
    · simp [aget, hp] at h
    · simp [aget, hp] at h
      simp [aget, hp, ih h]

/-- `crypto.randomUUID()` modelled as a counter rendered to a string. -/
def uuid (n : Nat) : String := "uuid-" ++ toString n

/-- JavaScript truthiness of the optional `__srpcId` string property:
`undefined` and the empty string are falsy. -/
def truthy : Option String → Bool
  | Option.none => false
  | some s => s ≠ ""

/-- `new Error(msg)`: name `"Error"`, the given message; the
runtime-generated stack string is modelled as absent. -/
def newError (msg : String) : ErrObj :=
  { name := "Error", message := msg }

/-- Modelled from the spec: the cancellation-kind error with which the
external completion primitive (`createDeferred` of `async-primitives`)
rejects when its attached cancellation token fires. -/
def cancelError : ErrObj :=
  { name := "AbortError", message := "The operation was aborted" }

/-- Receiver-side reconstruction of an error record
(`new Error(message)`, copy `name`, append the carried remote stack when
`produceStackTrace` is on; the local stack prefix of the fresh `Error` is
an environment value, modelled as empty). -/
def reconstructError (pst : Bool) (e : ErrObj) : ErrObj :=
  { name := e.name, message := e.message,
    stack := if pst then e.stack else Option.none }

/-- Sender-side safe error record: copy `name` and `message`, and when
`produceStackTrace` is on and a stack exists, attach the remote-stack
trailer tagged with the controller id. -/
def createSafeError (cid : String) (pst : Bool) (e : ErrObj) : ErrObj :=
  { name := e.name, message := e.message,
    stack :=
      match pst, e.stack with
      | true, some st =>
        some ("------- Remote stack trace [" ++ cid ++ "]:" ++ st)
      | _, _ => Option.none }

/-- Heap read for a JavaScript object identity. -/
def heapGet (s : State) (o : Nat) : Option ObjData :=
  aget o s.heap

/-- Assignment to an object's `__srpcId` expando property. -/
def heapSetSrpcId (s : State) (o : Nat) (x : Option String) : State :=
  match aget o s.heap with
  | some d => { s with heap := aset o { d with srpcId := x } s.heap }
  | Option.none => s

/-- `objectMap.get(id)?.deref()`: the stored weak referent, or nothing
when the key is absent or the referent has been collected. -/
def derefO (s : State) (id : String) : Option Nat :=
  match aget id s.objectMap with
  | some o => if o ∈ s.dead then Option.none else some o
  | Option.none => Option.none

/-- Settle a deferred (the external primitive settles at most once:
resolve/reject on an already-settled deferred is a no-op). -/
def settleDef (ds : List (Nat × DeferredState)) (did : Nat) (st : DStatus) :
    List (Nat × DeferredState) :=
  ds.map fun p =>
    if p.1 = did ∧ p.2.status = DStatus.pending then (p.1, { p.2 with status := st }) else p

/-- Does this value answer `arg instanceof AbortSignal`? -/
def isAbortSignalV (s : State) (v : Value) : Bool :=
  match v with
  | .obj o =>
    match heapGet s o with
    | some d => d.isAbortSignal
    | Option.none => false
  | _ => false

/-- `extractAbortSignal(args)`: scan the argument list last-to-first for
an `AbortSignal` instance. -/
def extractAbortSignal (s : State) (args : List Value) : Option Nat :=
  args.reverse.findSome? fun v =>
    match v with
    | .obj o => if isAbortSignalV s (.obj o) then some o else Option.none
    | _ => Option.none

/-- Values the marshalling transforms pass through untouched. -/
def Value.isPlain : Value → Bool
  | .null | .undef | .num _ | .str _ => true
  | _ => false

/-- Fresh export of an unmarked (or empty-marked) function inside
`tryRegisterSpecialObject`: assign a fresh identifier, mark the function,
insert it weakly into the object map, arm the finalization registry, and
also hold it strongly in the function registry until the peer purges. -/
def exportFreshFun (s : State) (o : Nat) (d : ObjData) : State × Value :=
  let functionId := uuid s.nextMsg
  ({ s with
      nextMsg := s.nextMsg + 1,
      heap := aset o { d with srpcId := some functionId } s.heap,
      objectMap := aset functionId o s.objectMap,
      frArmed := s.frArmed ++ [(o, functionId)],
      functionRegistry := aset functionId o s.functionRegistry },
   Value.funDesc functionId)

/-- Fresh export of an unmarked (or empty-marked) `AbortSignal` inside
`tryRegisterSpecialObject`: assign a fresh identifier, mark the signal,
insert it weakly into the object map, arm finalization, and attach the
`handleAbort` listener capturing that identifier.  The signal is not put
into the function registry. -/
def exportFreshSig (s : State) (o : Nat) (d : ObjData) : State × Value :=
  let abortSignalId := uuid s.nextMsg
  ({ s with
      nextMsg := s.nextMsg + 1,
      heap := aset o { d with srpcId := some abortSignalId,
                              abortListenerId := some abortSignalId } s.heap,
      objectMap := aset abortSignalId o s.objectMap,
      frArmed := s.frArmed ++ [(o, abortSignalId)] },
   Value.abortDesc abortSignalId)

/-- The export transform `tryRegisterSpecialObject` of the source:
functions become function descriptors, `AbortSignal`s become abort
descriptors, everything else passes through. -/
def tryRegisterSpecialObject (s : State) (v : Value) : State × Value :=
  match v with
  | .obj o =>
    match heapGet s o with
    | some d =>
      if d.isFunction then
        if truthy d.srpcId then (s, Value.funDesc (d.srpcId.getD ""))
        else exportFreshFun s o d
      else if d.isAbortSignal then
        if truthy d.srpcId then (s, Value.abortDesc (d.srpcId.getD ""))
        else exportFreshSig s o d
      else (s, v)
    | Option.none => (s, v)
  | _ => (s, v)

/-- Import of an abort descriptor with no usable adapter in the object
map: build a fresh `AbortController` (modelled by its signal object), wrap
it in an abort-adapter function registered under the same identifier
(weakly in the object map and strongly in the function registry; the
source does not arm the finalization registry here), and hand back the
controller's signal. -/
def mkAbortAdapter (s : State) (id : String) : State × Value :=
  let sig := s.nextObj
  let af := s.nextObj + 1
  ({ s with
      nextObj := s.nextObj + 2,
      heap := aset af { srpcId := some id, isFunction := true, abortController := some sig }
        (aset sig { isAbortSignal := true } s.heap),
      objectMap := aset id af s.objectMap,
      functionRegistry := aset id af s.functionRegistry },
   Value.obj sig)

/-- The import transform `tryRegisterStubObject` of the source: a function
descriptor yields the live object-map referent or a freshly synthesized
stub; an abort descriptor yields the adapter's signal (building the
adapter if needed); everything else passes through.  The descriptor test
is JavaScript truthiness of `__srpcId`, so an empty identifier falls
through. -/
def tryRegisterStubObject (s : State) (v : Value) : State × Value :=
  match v with
  | .funDesc id =>
    if id = "" then (s, v)
    else
      match derefO s id with
      | some o => (s, Value.obj o)
      | Option.none =>
        let o := s.nextObj
        ({ s with
            nextObj := o + 1,
            heap := aset o { srpcId := some id, isFunction := true } s.heap,
            objectMap := aset id o s.objectMap,
            frArmed := s.frArmed ++ [(o, id)] },
         Value.obj o)
  | .abortDesc id =>
    if id = "" then (s, v)
    else
      match derefO s id with
      | some o =>
        match (heapGet s o).bind (fun d => d.abortController) with
        | some sig => (s, Value.obj sig)
        | Option.none => mkAbortAdapter s id
      | Option.none => mkAbortAdapter s id
  | _ => (s, v)

/-- Element-wise stateful transformation of an argument list, in order
(the `for` loops over `args` in the source). -/
def mapState (f : State → Value → State × Value) : State → List Value → State × List Value
  | s, [] => (s, [])
  | s, v :: t =>
    let r := f s v
    let rt := mapState f r.1 t
    (rt.1, r.2 :: rt.2)

/-- The two shapes of `onSendMessage` return observed by the caller path,
plus a synchronous throw: `void` (fire-and-forget), a future of the
response message (waitable), or a raised error. -/
inductive SendResult where
  | fireAndForget
  | waitable (m : Message)
  | thrown (e : ErrObj)
deriving DecidableEq

/-- Outcome of `invoke` for the caller: a still-pending deferred (its
identity), a resolved value, or a raised error. -/
inductive InvokeOutcome where
  | pending (did : Nat)
  | ok (v : Value)
  | threw (e : ErrObj)
deriving DecidableEq

/-- `register(functionId, f)`: throw when the function already carries a
truthy `__srpcId` marker (the message interpolates the old marker);
otherwise mark it, hold it strongly in the function registry, insert it
weakly into the object map and arm the finalization registry.  The
returned release handle is modelled by `registerRelease`. -/
def register (s : State) (functionId : String) (o : Nat) : State × Option ErrObj :=
  let marker := (heapGet s o).bind fun d => d.srpcId
  if truthy marker then
    (s, some (newError ("Function " ++ marker.getD "" ++ " already registered.")))
  else
    let s1 := heapSetSrpcId s o (some functionId)
    ({ s1 with
        functionRegistry := aset functionId o s1.functionRegistry,
        objectMap := aset functionId o s1.objectMap,
        frArmed := s1.frArmed ++ [(o, functionId)] }, Option.none)

/-- The release handle returned by `register`: delete the identifier from
the function registry, unregister the function from the finalization
registry, and clear its `__srpcId` marker.  The object-map entry is left
in place. -/
def registerRelease (s : State) (functionId : String) (o : Nat) : State :=
  { heapSetSrpcId s o Option.none with
      functionRegistry := adel functionId s.functionRegistry,
      frArmed := s.frArmed.filter fun p => !decide (p.1 = o) }

/-- `release()` on the controller: snapshot the registry values and the
pending deferreds, clear the object map, the function registry and the
invocation tracker, unregister the snapshotted registry functions from the
finalization registry, and reject every snapshotted deferred with
`Controller released`. -/
def release (s : State) : State :=
  let fs := s.functionRegistry.map fun p => p.2
  let ds := s.invocations.map fun p => p.2
  let s1 := { s with
      objectMap := ([] : List (String × Nat)),
      functionRegistry := ([] : List (String × Nat)),
      invocations := ([] : List (String × Nat)),
      frArmed := s.frArmed.filter fun p => !decide (p.1 ∈ fs) }
  { s1 with
      deferreds :=
        ds.foldl (fun a did => settleDef a did (DStatus.rejected (newError "Controller released")))
          s1.deferreds }

/-- The caller-path warning logged when sending or awaiting the invoke
message failed (payload text after the identifier elided). -/
def invokeFailWarn (mid : String) : String :=
  "Failed sending invoke message to peer: messageId=" ++ mid

/-- The `Unexpected response` error raised when a waitable send returned a
message of the wrong kind or with a foreign `messageId`. -/
def unexpectedResponse (kind : String) (mid : String) : ErrObj :=
  newError ("Unexpected response: " ++ kind ++ " for messageId: " ++ mid)

/-- Steps of `invoke` up to (but not including) the call of the send
callback: extract the signal, allocate the `messageId`, run the export
transform over the arguments, create the deferred and insert it into
`invocations` under the `messageId`.  Returns the pre-send state, the
`messageId`, the deferred identity and the outgoing message. -/
def invokePrepare (s : State) (functionId : String) (args : List Value) :
    State × String × Nat × Message :=
  let signal := extractAbortSignal s args
  let messageId := uuid s.nextMsg
  let s1 : State := { s with nextMsg := s.nextMsg + 1 }
  let ta := mapState tryRegisterSpecialObject s1 args
  let s2 := ta.1
  let did := s2.nextDef
  let s3 : State := { s2 with
      nextDef := s2.nextDef + 1,
      deferreds := s2.deferreds ++ [(did, { signal := signal, status := DStatus.pending })],
      invocations := aset messageId did s2.invocations }
  (s3, messageId, did, Message.invoke messageId functionId ta.2 false)

/-- `invoke(functionId, ...args)`.  The send callback is a parameter that
observes the controller state at call time; its three observable return
shapes are handled as in the source: `void` leaves the deferred pending,
a returned future of a message removes the `invocations` entry and
interprets the response directly, a synchronous throw removes the entry,
logs and rethrows. -/
def invoke (pst : Bool) (send : State → Message → SendResult) (s : State)
    (functionId : String) (args : List Value) : State × List Event × InvokeOutcome :=
  let P := invokePrepare s functionId args
  let s3 := P.1
  let messageId := P.2.1
  let msg := P.2.2.2
  match send s3 msg with
  | SendResult.fireAndForget =>
    (s3, [Event.send msg], InvokeOutcome.pending P.2.2.1)
  | SendResult.waitable m =>
    let s4 : State := { s3 with invocations := adel messageId s3.invocations }
    match m with
    | Message.result mid r =>
      if mid = messageId then
        let tr := tryRegisterStubObject s4 r
        (tr.1, [Event.send msg], InvokeOutcome.ok tr.2)
      else
        (s4, [Event.send msg, Event.warn (invokeFailWarn messageId)],
         InvokeOutcome.threw (unexpectedResponse "result" messageId))
    | Message.error mid e =>
      if mid = messageId then
        (s4, [Event.send msg, Event.warn (invokeFailWarn messageId)],
         InvokeOutcome.threw (reconstructError pst e))
      else
        (s4, [Event.send msg, Event.warn (invokeFailWarn messageId)],
         InvokeOutcome.threw (unexpectedResponse "error" messageId))
    | Message.none mid =>
      if mid = messageId then (s4, [Event.send msg], InvokeOutcome.ok Value.undef)
      else
        (s4, [Event.send msg, Event.warn (invokeFailWarn messageId)],
         InvokeOutcome.threw (unexpectedResponse "none" messageId))
    | Message.invoke _ _ _ _ =>
      (s4, [Event.send msg, Event.warn (invokeFailWarn messageId)],
       InvokeOutcome.threw (unexpectedResponse "invoke" messageId))
    | Message.purge _ _ =>
      (s4, [Event.send msg, Event.warn (invokeFailWarn messageId)],
       InvokeOutcome.threw (unexpectedResponse "purge" messageId))
  | SendResult.thrown e =>
    ({ s3 with invocations := adel messageId s3.invocations },
     [Event.send msg, Event.warn (invokeFailWarn messageId)], InvokeOutcome.threw e)

/-- Steps of `invokeOneWay` up to the call of the send callback: allocate
the `messageId` and run the export transform over the arguments.  No
deferred is created and `invocations` is untouched. -/
def invokeOneWayPrepare (s : State) (functionId : String) (args : List Value) :
    State × Message :=
  let messageId := uuid s.nextMsg
  let s1 : State := { s with nextMsg := s.nextMsg + 1 }
  let ta := mapState tryRegisterSpecialObject s1 args
  (ta.1, Message.invoke messageId functionId ta.2 true)

/-- `invokeOneWay(functionId, ...args)`: send a one-way invoke; a
synchronous throw of the send callback is logged and rethrown (returned as
`some` error). -/
def invokeOneWay (send : State → Message → SendResult) (s : State)
    (functionId : String) (args : List Value) : State × List Event × Option ErrObj :=
  let P := invokeOneWayPrepare s functionId args
  match send P.1 P.2 with
  | SendResult.thrown e =>
    (P.1, [Event.send P.2, Event.warn (invokeFailWarn P.2.mid)], some e)
  | _ => (P.1, [Event.send P.2], Option.none)

/-- Environment step: the caller-side `AbortController` owning signal `o`
fires.  The `handleAbort` listener attached at export time sends a one-way
invoke naming the captured identifier (a failure of the send callback is
logged); then — modelled from the spec, since the completion primitive is
the external library's — every pending deferred attached to the signal
rejects with the cancellation-kind error.  `invocations` is not touched by
either step. -/
def fireSignal (sendOutcome : Message → Option ErrObj) (s : State) (o : Nat) :
    State × List Event :=
  let r :=
    match heapGet s o with
    | some d =>
      match d.abortListenerId with
      | some id =>
        let msg := Message.invoke (uuid s.nextMsg) id [] true
        let s1 : State := { s with nextMsg := s.nextMsg + 1 }
        match sendOutcome msg with
        | Option.none => (s1, [Event.send msg])
        | some _ =>
          (s1, [Event.send msg,
                Event.warn ("Failed to send abort signal: messageId=" ++ msg.mid)])
      | Option.none => (s, ([] : List Event))
    | Option.none => (s, ([] : List Event))
  let s1 := r.1
  ({ s1 with
      deferreds := s1.deferreds.map fun p =>
        if p.2.signal = some o ∧ p.2.status = DStatus.pending then
          (p.1, { p.2 with status := DStatus.rejected cancelError })
        else p }, r.2)

/-- The error message sent or returned when the invoked identifier has no
live referent in the object map. -/
def notFoundError (functionId : String) : ErrObj :=
  newError ("Function \x27" ++ functionId ++ "\x27 is not found")

/-- Dispatcher action shared by both variants for an incoming `result`
message: when a pending invocation is tracked under the `messageId`,
remove it, run the import transform on the carried result and resolve its
deferred; otherwise only log a warning. -/
def dispatchResult (s : State) (mid : String) (r : Value) : State × List Event :=
  match aget mid s.invocations with
  | some did =>
    let s1 : State := { s with invocations := adel mid s.invocations }
    let tr := tryRegisterStubObject s1 r
    ({ tr.1 with deferreds := settleDef tr.1.deferreds did (DStatus.resolved tr.2) },
     ([] : List Event))
  | Option.none =>
    (s, [Event.warn ("Failed examine result message: messageId=" ++ mid)])

/-- Dispatcher action shared by both variants for an incoming `error`
message: when a pending invocation is tracked under the `messageId`,
remove it, reconstruct the error and reject its deferred; otherwise only
log a warning. -/
def dispatchError (pst : Bool) (s : State) (mid : String) (e : ErrObj) : State × List Event :=
  match aget mid s.invocations with
  | some did =>
    let s1 : State := { s with invocations := adel mid s.invocations }
    ({ s1 with deferreds := settleDef s1.deferreds did (DStatus.rejected (reconstructError pst e)) },
     ([] : List Event))
  | Option.none =>
    (s, [Event.warn ("Failed examine error message: messageId=" ++ mid)])

/-- Dispatcher action shared by both variants for an incoming `purge`
message: when the identifier is held in the function registry, drop it
from registry and object map, unregister it from the finalization registry
and delete its marker; an unknown identifier is ignored. -/
def dispatchPurge (s : State) (mid functionId : String) : State × List Event :=
  match aget functionId s.functionRegistry with
  | some o =>
    ({ heapSetSrpcId s o Option.none with
        functionRegistry := adel functionId s.functionRegistry,
        objectMap := adel functionId s.objectMap,
        frArmed := s.frArmed.filter fun p => !decide (p.1 = o) },
     [Event.debug ("Purge request arrived: messageId=" ++ mid)])
  | Option.none => (s, ([] : List Event))

/-- `insertMessage(message)` (fire-and-forget dispatcher).  `callOutcome`
is the oracle for the settled outcome of awaiting the target procedure;
`sendOutcome` says whether the configured send callback throws on a given
message (such a failure is logged at warn level and swallowed). -/
def insertMessage (cid : String) (pst : Bool)
    (callOutcome : Nat → List Value → Except ErrObj Value)
    (sendOutcome : Message → Option ErrObj)
    (s : State) (m : Message) : State × List Event :=
  match m with
  | Message.invoke mid functionId args oneWay =>
    match derefO s functionId with
    | Option.none =>
      let errMsg := Message.error mid (notFoundError functionId)
      match sendOutcome errMsg with
      | Option.none => (s, [Event.send errMsg])
      | some _ =>
        (s, [Event.send errMsg,
             Event.warn ("Failed sending error message to peer: messageId=" ++ mid)])
    | some o =>
      let ta := mapState tryRegisterStubObject s args
      let s1 := ta.1
      if oneWay then
        match callOutcome o ta.2 with
        | Except.ok _ => (s1, [Event.call o ta.2])
        | Except.error _ =>
          (s1, [Event.call o ta.2,
                Event.warn ("Error invoking one-way function: messageId=" ++ mid)])
      else
        match callOutcome o ta.2 with
        | Except.error e =>
          let errMsg := Message.error mid (createSafeError cid pst e)
          match sendOutcome errMsg with
          | Option.none => (s1, [Event.call o ta.2, Event.send errMsg])
          | some _ =>
            (s1, [Event.call o ta.2, Event.send errMsg,
                  Event.warn ("Failed sending error message to peer: messageId=" ++ mid)])
        | Except.ok v =>
          let tr := tryRegisterSpecialObject s1 v
          let resMsg := Message.result mid tr.2
          match sendOutcome resMsg with
          | Option.none => (tr.1, [Event.call o ta.2, Event.send resMsg])
          | some _ =>
            (tr.1, [Event.call o ta.2, Event.send resMsg,
                    Event.warn ("Failed sending result message to peer: messageId=" ++ mid)])
  | Message.result mid r => dispatchResult s mid r
  | Message.error mid e => dispatchError pst s mid e
  | Message.purge mid functionId => dispatchPurge s mid functionId
  | Message.none mid => (s, [Event.debug ("None message arrived: messageId=" ++ mid)])

/-- `insertMessageWaitable(message)` (response-returning dispatcher).
Same table updates as `insertMessage`, but responses are returned to the
caller instead of being pushed through the send callback; `result`,
`error`, `purge` and `none` messages are echoed back unchanged, and a
one-way invoke is answered with a `none` message. -/
def insertMessageWaitable (cid : String) (pst : Bool)
    (callOutcome : Nat → List Value → Except ErrObj Value)
    (s : State) (m : Message) : State × List Event × Message :=
  match m with
  | Message.invoke mid functionId args oneWay =>
    match derefO s functionId with
    | Option.none => (s, ([] : List Event), Message.error mid (notFoundError functionId))
    | some o =>
      let ta := mapState tryRegisterStubObject s args
      let s1 := ta.1
      if oneWay then
        match callOutcome o ta.2 with
        | Except.ok _ => (s1, [Event.call o ta.2], Message.none mid)
        | Except.error _ =>
          (s1, [Event.call o ta.2,
                Event.warn ("Raise an error for one-way function: messageId=" ++ mid)],
           Message.none mid)
      else
        match callOutcome o ta.2 with
        | Except.error e =>
          (s1, [Event.call o ta.2], Message.error mid (createSafeError cid pst e))
        | Except.ok v =>
          let tr := tryRegisterSpecialObject s1 v
          (tr.1, [Event.call o ta.2], Message.result mid tr.2)
  | Message.result mid r =>
    let r1 := dispatchResult s mid r
    (r1.1, r1.2, Message.result mid r)
  | Message.error mid e =>
    let r1 := dispatchError pst s mid e
    (r1.1, r1.2, Message.error mid e)
  | Message.purge mid functionId =>
    let r1 := dispatchPurge s mid functionId
    (r1.1, r1.2, Message.purge mid functionId)
  | Message.none mid =>
    (s, [Event.debug ("None message arrived: messageId=" ++ mid)], Message.none mid)

theorem tryRegisterSpecialObject_frame (s : State) (v : Value) :
    (tryRegisterSpecialObject s v).1.invocations = s.invocations ∧
    (tryRegisterSpecialObject s v).1.deferreds = s.deferreds ∧
    (tryRegisterSpecialObject s v).1.nextDef = s.nextDef ∧
    (tryRegisterSpecialObject s v).1.dead = s.dead := by
  cases v <;> simp only [tryRegisterSpecialObject] <;> try simp
  case obj o =>
    cases h : heapGet s o with
    | none => simp
    | some d =>
      by_cases hf : d.isFunction <;> by_cases ht : truthy d.srpcId <;>
        by_cases ha : d.isAbortSignal <;>
        simp [hf, ht, ha, exportFreshFun, exportFreshSig]

theorem mapState_special_frame (s : State) (args : List Value) :
    (mapState tryRegisterSpecialObject s args).1.invocations = s.invocations ∧
    (mapState tryRegisterSpecialObject s args).1.deferreds = s.deferreds ∧
    (mapState tryRegisterSpecialObject s args).1.nextDef = s.nextDef ∧
    (mapState tryRegisterSpecialObject s args).1.dead = s.dead := by
  induction args generalizing s with
  | nil => exact ⟨rfl, rfl, rfl, rfl⟩
  | cons v t ih =>
    have h1 := tryRegisterSpecialObject_frame s v
    have h2 := ih (tryRegisterSpecialObject s v).1
    simp only [mapState]
    exact ⟨h2.1.trans h1.1, h2.2.1.trans h1.2.1, h2.2.2.1.trans h1.2.2.1,
      h2.2.2.2.trans h1.2.2.2⟩

theorem tryRegisterStubObject_frame (s : State) (v : Value) :
    (tryRegisterStubObject s v).1.invocations = s.invocations ∧
    (tryRegisterStubObject s v).1.deferreds = s.deferreds ∧
    (tryRegisterStubObject s v).1.nextDef = s.nextDef ∧
    (tryRegisterStubObject s v).1.dead = s.dead := by
  cases v <;> simp only [tryRegisterStubObject] <;> try simp
  case funDesc id =>
    by_cases hid : id = ""
    · simp [hid]
    · simp only [if_neg hid]
      cases h : derefO s id <;> simp
  case abortDesc id =>
    by_cases hid : id = ""
    · simp [hid]
    · simp only [if_neg hid]
      cases h : derefO s id with
      | none => simp [mkAbortAdapter]
      | some o =>
        cases hc : (heapGet s o).bind (fun d => d.abortController) <;>
          simp [mkAbortAdapter, hc]

theorem mapState_stub_frame (s : State) (args : List Value) :
    (mapState tryRegisterStubObject s args).1.invocations = s.invocations ∧
    (mapState tryRegisterStubObject s args).1.deferreds = s.deferreds ∧
    (mapState tryRegisterStubObject s args).1.nextDef = s.nextDef ∧
    (mapState tryRegisterStubObject s args).1.dead = s.dead := by
  induction args generalizing s with
  | nil => exact ⟨rfl, rfl, rfl, rfl⟩
  | cons v t ih =>
    have h1 := tryRegisterStubObject_frame s v
    have h2 := ih (tryRegisterStubObject s v).1
    simp only [mapState]
    exact ⟨h2.1.trans h1.1, h2.2.1.trans h1.2.1, h2.2.2.1.trans h1.2.2.1,
      h2.2.2.2.trans h1.2.2.2⟩

theorem tryRegisterSpecialObject_plain {v : Value} (s : State) (h : v.isPlain = true) :
    tryRegisterSpecialObject s v = (s, v) := by
  cases v <;> simp_all [Value.isPlain, tryRegisterSpecialObject]

theorem tryRegisterStubObject_plain {v : Value} (s : State) (h : v.isPlain = true) :
    tryRegisterStubObject s v = (s, v) := by
  cases v <;> simp_all [Value.isPlain, tryRegisterStubObject]

theorem mapState_special_plain {args : List Value} (s : State)
    (h : ∀ v ∈ args, v.isPlain = true) :
    mapState tryRegisterSpecialObject s args = (s, args) := by
  induction args generalizing s with
  | nil => rfl
  | cons v t ih =>
    simp only [mapState, tryRegisterSpecialObject_plain s (h v (List.mem_cons_self v t)),
      ih s (fun w hw => h w (List.mem_cons_of_mem v hw))]

theorem mapState_stub_plain {args : List Value} (s : State)
    (h : ∀ v ∈ args, v.isPlain = true) :
    mapState tryRegisterStubObject s args = (s, args) := by
  induction args generalizing s with
  | nil => rfl
  | cons v t ih =>
    simp only [mapState, tryRegisterStubObject_plain s (h v (List.mem_cons_self v t)),
      ih s (fun w hw => h w (List.mem_cons_of_mem v hw))]

theorem settleDef_cons (p : Nat × DeferredState) (t : List (Nat × DeferredState))
    (did : Nat) (st : DStatus) :
    settleDef (p :: t) did st =
      (if p.1 = did ∧ p.2.status = DStatus.pending then
        (p.1, { p.2 with status := st }) else p) :: settleDef t did st := rfl

theorem aget_settleDef_ne {ds : List (Nat × DeferredState)} {did d : Nat} (st : DStatus)
    (h : d ≠ did) : aget d (settleDef ds did st) = aget d ds := by
  induction ds with
  | nil => rfl
  | cons p t ih =>
    rw [settleDef_cons]
    by_cases hc : p.1 = did ∧ p.2.status = DStatus.pending
    · rw [if_pos hc]
      simp only [aget]
      by_cases hp : p.1 = d
      · exact absurd (hp.symm.trans hc.1) h
      · simp only [if_neg hp, ih]
    · rw [if_neg hc]
      simp only [aget]
      by_cases hp : p.1 = d
      · simp only [if_pos hp]
      · simp only [if_neg hp, ih]

theorem aget_settleDef_pending {ds : List (Nat × DeferredState)} {did : Nat}
    {dd : DeferredState} (st : DStatus) (h : aget did ds = some dd)
    (hp : dd.status = DStatus.pending) :
    aget did (settleDef ds did st) = some { dd with status := st } := by
  induction ds with
  | nil => simp [aget] at h
  | cons p t ih =>
    rw [settleDef_cons]
    by_cases hk : p.1 = did
    · have hpd : p.2 = dd := by simpa [aget, hk] using h
      by_cases hc : p.1 = did ∧ p.2.status = DStatus.pending
      · rw [if_pos hc]
        simp [aget, hk, hpd]
      · exact absurd ⟨hk, by rw [hpd]; exact hp⟩ hc
    · have h2 : aget did t = some dd := by simpa [aget, hk] using h
      by_cases hc : p.1 = did ∧ p.2.status = DStatus.pending
      · exact absurd hc.1 hk
      · rw [if_neg hc]
        simp only [aget, if_neg hk]
        exact ih h2

theorem aget_settleDef_stable {ds : List (Nat × DeferredState)} {did : Nat}
    {dd : DeferredState} (st : DStatus) (h : aget did ds = some dd)
    (hp : dd.status ≠ DStatus.pending) :
    aget did (settleDef ds did st) = some dd := by
  induction ds with
  | nil => simp [aget] at h
  | cons p t ih =>
    rw [settleDef_cons]
    by_cases hk : p.1 = did
    · have hpd : p.2 = dd := by simpa [aget, hk] using h
      by_cases hc : p.1 = did ∧ p.2.status = DStatus.pending
      · exact absurd (by rw [hpd] at hc; exact hc.2) hp
      · rw [if_neg hc]
        simp [aget, hk, hpd]
    · have h2 : aget did t = some dd := by simpa [aget, hk] using h
      by_cases hc : p.1 = did ∧ p.2.status = DStatus.pending
      · exact absurd hc.1 hk
      · rw [if_neg hc]
        simp only [aget, if_neg hk]
        exact ih h2

/-- Claim C2: for every incoming invoke message whose `functionId` has no
live referent in the object table, the dispatcher calls no target
procedure and produces an error response whose message is
`Function '<id>' is not found` — handed to the send callback by
`insertMessage`, and returned as the response message by
`insertMessageWaitable`.  In both variants the controller state is left
unchanged. -/
theorem c2_function_not_found (cid : String) (pst : Bool)
    (callOutcome : Nat → List Value → Except ErrObj Value)
    (sendOutcome : Message → Option ErrObj)
    (s : State) (mid functionId : String) (args : List Value) (oneWay : Bool)
    (h : derefO s functionId = Option.none) :
    (notFoundError functionId).message = "Function \x27" ++ functionId ++ "\x27 is not found" ∧
    (insertMessage cid pst callOutcome sendOutcome s
        (Message.invoke mid functionId args oneWay)).1 = s ∧
    (insertMessage cid pst callOutcome sendOutcome s
        (Message.invoke mid functionId args oneWay)).2.head? =
      some (Event.send (Message.error mid (notFoundError functionId))) ∧
    (∀ o a, Event.call o a ∉ (insertMessage cid pst callOutcome sendOutcome s
        (Message.invoke mid functionId args oneWay)).2) ∧
    insertMessageWaitable cid pst callOutcome s (Message.invoke mid functionId args oneWay) =
      (s, [], Message.error mid (notFoundError functionId)) := by
  refine ⟨rfl, ?_, ?_, ?_, ?_⟩ <;>
    simp only [insertMessage, insertMessageWaitable, h] <;>
    cases hs : sendOutcome (Message.error mid (notFoundError functionId)) <;> simp [hs]

/-- Witness for C2 at the spec's own scenario S2: no function `add` is
registered, so dispatching an invoke for it answers with the
`Function 'add' is not found` error and no call happens. -/
theorem c2_function_not_found_witness :
    derefO {} "add" = Option.none ∧
    insertMessageWaitable "c" false (fun _ _ => Except.ok Value.null) {}
        (Message.invoke "m1" "add" [Value.num 1, Value.num 2] false) =
      ({}, [], Message.error "m1" (notFoundError "add")) :=
  ⟨rfl, (c2_function_not_found "c" false (fun _ _ => Except.ok Value.null)
      (fun _ => Option.none) {} "m1" "add" [Value.num 1, Value.num 2] false rfl).2.2.2.2⟩

/-- Claim C4 counterexample: register a procedure under the empty
identifier; the object table then holds a live referent under `""`, yet
importing the function descriptor with that identifier returns the
descriptor itself — not the referent — because the descriptor test is
JavaScript truthiness of `__srpcId` and the empty string is falsy.  So
the import transform does not always return the live object-table
referent when one is present. -/
theorem c4_import_identity_counterexample :
    (register { heap := [(0, { isFunction := true })], nextObj := 1 } "" 0).2 = Option.none ∧
    derefO (register { heap := [(0, { isFunction := true })], nextObj := 1 } "" 0).1 "" =
      some 0 ∧
    tryRegisterStubObject (register { heap := [(0, { isFunction := true })], nextObj := 1 } "" 0).1
        (Value.funDesc "") =
      ((register { heap := [(0, { isFunction := true })], nextObj := 1 } "" 0).1,
       Value.funDesc "") ∧
    (tryRegisterStubObject (register { heap := [(0, { isFunction := true })], nextObj := 1 } "" 0).1
        (Value.funDesc "")).2 ≠ Value.obj 0 := by
  decide

/-- Claim C4 (amended): for every non-empty function identifier, importing
a function descriptor with that identifier twice without intervening
finalization yields the same stub object both times — the import transform
returns the live object-table referent when present and synthesizes a new
stub only when no live referent exists.  (A descriptor whose identifier is
the empty string fails the truthiness test and passes through untouched.) -/
theorem c4_import_identity (s : State) (id : String) (hid : id ≠ "")
    (hfresh : s.nextObj ∉ s.dead) :
    tryRegisterStubObject (tryRegisterStubObject s (Value.funDesc id)).1 (Value.funDesc id) =
      tryRegisterStubObject s (Value.funDesc id) ∧
    (∀ o, derefO s id = some o →
      tryRegisterStubObject s (Value.funDesc id) = (s, Value.obj o)) ∧
    (derefO s id = Option.none →
      (tryRegisterStubObject s (Value.funDesc id)).2 = Value.obj s.nextObj ∧
      aget id (tryRegisterStubObject s (Value.funDesc id)).1.objectMap = some s.nextObj) := by
  cases h : derefO s id with
  | some o =>
    have h1 : tryRegisterStubObject s (Value.funDesc id) = (s, Value.obj o) := by
      simp [tryRegisterStubObject, hid, h]
    refine ⟨?_, ?_, ?_⟩
    · rw [h1]
      exact h1
    · intro o' ho'
      injection ho' with hh
      rw [← hh]
      exact h1
    · intro habs
      simp at habs
  | none =>
    have h1 : tryRegisterStubObject s (Value.funDesc id) =
        ({ s with
            nextObj := s.nextObj + 1,
            heap := aset s.nextObj { srpcId := some id, isFunction := true } s.heap,
            objectMap := aset id s.nextObj s.objectMap,
            frArmed := s.frArmed ++ [(s.nextObj, id)] }, Value.obj s.nextObj) := by
      simp [tryRegisterStubObject, hid, h]
    have h2 : derefO ({ s with
        nextObj := s.nextObj + 1,
        heap := aset s.nextObj { srpcId := some id, isFunction := true } s.heap,
        objectMap := aset id s.nextObj s.objectMap,
        frArmed := s.frArmed ++ [(s.nextObj, id)] } : State) id = some s.nextObj := by
      simp [derefO, aget_aset_self, hfresh]
    refine ⟨?_, ?_, ?_⟩
    · rw [h1]
      simp only [tryRegisterStubObject, if_neg hid, h2]
    · intro o ho
      simp at ho
    · intro _
      constructor
      · rw [h1]
      · rw [h1]
        exact aget_aset_self _ _ _

/-- Witness for the amended C4: importing the descriptor `f` twice into a
fresh controller state returns the same stub object both times. -/
theorem c4_import_identity_witness :
    tryRegisterStubObject (tryRegisterStubObject {} (Value.funDesc "f")).1 (Value.funDesc "f") =
      tryRegisterStubObject {} (Value.funDesc "f") :=
  (c4_import_identity {} "f" (by decide) (by decide)).1

/-- Claim C8 counterexample: registering a procedure under the empty
identifier succeeds and marks it with `""`; the procedure then carries the
internal export marker, yet a second `register` with a different
identifier also succeeds, because the already-registered test is
JavaScript truthiness of the marker and the empty string is falsy.  So
`register` does not fail for every already-marked procedure. -/
theorem c8_register_counterexample :
    (register { heap := [(0, { isFunction := true })], nextObj := 1 } "" 0).2 = Option.none ∧
    ((heapGet (register { heap := [(0, { isFunction := true })], nextObj := 1 } "" 0).1 0).map
      (fun d => d.srpcId)) = some (some "") ∧
    (register (register { heap := [(0, { isFunction := true })], nextObj := 1 } "" 0).1
        "x" 0).2 = Option.none := by
  decide

/-- Claim C8 (amended): `register(functionId, procedure)` raises the
already-registered error if and only if the procedure carries a truthy
(non-empty) marker — for any such marked procedure regardless of which
identifier marked it, with the error message interpolating the old marker;
a procedure whose marker is absent (or the falsy empty string) registers
successfully even when the requested identifier is already in use by
another procedure, and on success the procedure is stored strongly in the
registry, inserted weakly into the object table, armed for finalization
and marked with the new identifier. -/
theorem c8_register (s : State) (functionId : String) (o : Nat) (d : ObjData)
    (hd : heapGet s o = some d) :
    ((register s functionId o).2.isSome = true ↔ truthy d.srpcId = true) ∧
    (∀ oldId, d.srpcId = some oldId → oldId ≠ "" →
      register s functionId o =
        (s, some (newError ("Function " ++ oldId ++ " already registered.")))) ∧
    ((register s functionId o).2 = Option.none →
      aget functionId (register s functionId o).1.functionRegistry = some o ∧
      aget functionId (register s functionId o).1.objectMap = some o ∧
      (o, functionId) ∈ (register s functionId o).1.frArmed ∧
      heapGet (register s functionId o).1 o = some { d with srpcId := some functionId }) := by
  have hm : (heapGet s o).bind (fun dd => dd.srpcId) = d.srpcId := by rw [hd]; rfl
  by_cases ht : truthy d.srpcId = true
  · have hr : register s functionId o =
        (s, some (newError ("Function " ++ d.srpcId.getD "" ++ " already registered."))) := by
      simp only [register, hm, ht, if_true]
    refine ⟨?_, ?_, ?_⟩
    · rw [hr]
      simp [ht]
    · intro oldId hold _
      rw [hr, hold]
      rfl
    · intro habs
      rw [hr] at habs
      simp at habs
  · have hr : register s functionId o =
        ({ heapSetSrpcId s o (some functionId) with
            functionRegistry :=
              aset functionId o (heapSetSrpcId s o (some functionId)).functionRegistry,
            objectMap := aset functionId o (heapSetSrpcId s o (some functionId)).objectMap,
            frArmed := (heapSetSrpcId s o (some functionId)).frArmed ++ [(o, functionId)] },
         Option.none) := by
      simp only [register, hm, ht, if_false, Bool.false_eq_true]
    have hset : heapSetSrpcId s o (some functionId) =
        { s with heap := aset o { d with srpcId := some functionId } s.heap } := by
      simp only [heapSetSrpcId, heapGet] at hd ⊢
      rw [hd]
    refine ⟨?_, ?_, ?_⟩
    · rw [hr]
      simp [ht]
    · intro oldId hold hne
      exact absurd (by simp [truthy, hold, hne]) ht
    · intro _
      rw [hr, hset]
      refine ⟨aget_aset_self _ _ _, aget_aset_self _ _ _, ?_, ?_⟩
      · exact List.mem_append_right _ (List.mem_singleton.mpr rfl)
      · exact aget_aset_self _ _ _

/-- Witness for the amended C8: an unmarked procedure registers
successfully even though its identifier is already bound to a different
procedure in the registry, and the tables then hold the new procedure. -/
theorem c8_register_witness :
    (register { heap := [(0, { isFunction := true }), (1, { isFunction := true })], nextObj := 2, functionRegistry := [("f", 1)], objectMap := [("f", 1)] } "f" 0).2 = Option.none ∧
    aget "f" (register { heap := [(0, { isFunction := true }), (1, { isFunction := true })], nextObj := 2, functionRegistry := [("f", 1)], objectMap := [("f", 1)] } "f" 0).1.functionRegistry = some 0 :=
  ⟨by decide,
   ((c8_register { heap := [(0, { isFunction := true }), (1, { isFunction := true })], nextObj := 2, functionRegistry := [("f", 1)], objectMap := [("f", 1)] } "f" 0 { isFunction := true } rfl).2.2 (by decide)).1⟩

theorem heapSetSrpcId_frame (s : State) (o : Nat) (x : Option String) :
    (heapSetSrpcId s o x).objectMap = s.objectMap ∧
    (heapSetSrpcId s o x).dead = s.dead ∧
    (heapSetSrpcId s o x).functionRegistry = s.functionRegistry ∧
    (heapSetSrpcId s o x).invocations = s.invocations ∧
    (heapSetSrpcId s o x).frArmed = s.frArmed ∧
    (heapSetSrpcId s o x).deferreds = s.deferreds := by
  unfold heapSetSrpcId
  cases aget o s.heap <;> simp

/-- Claim C10: calling the release handle returned by `register` removes
the identifier from the function registry, disarms the procedure's
finalization watch and clears its marker, but leaves the weak object-table
entry in place; an invoke message naming that identifier that arrives
after release, while the procedure object is still alive, is dispatched to
the procedure (the first observable effect is the call) rather than
answered with the `Function '<id>' is not found` error. -/
theorem c10_release_handle (cid : String) (pst : Bool)
    (callOutcome : Nat → List Value → Except ErrObj Value)
    (sendOutcome : Message → Option ErrObj)
    (s : State) (functionId mid : String) (o : Nat) (args : List Value) (oneWay : Bool)
    (hmap : aget functionId s.objectMap = some o)
    (halive : o ∉ s.dead)
    (hplain : ∀ v ∈ args, v.isPlain = true) :
    (registerRelease s functionId o).objectMap = s.objectMap ∧
    aget functionId (registerRelease s functionId o).functionRegistry = Option.none ∧
    (∀ q ∈ (registerRelease s functionId o).frArmed, q.1 ≠ o) ∧
    (∀ dd, heapGet s o = some dd →
      heapGet (registerRelease s functionId o) o = some { dd with srpcId := Option.none }) ∧
    (insertMessage cid pst callOutcome sendOutcome (registerRelease s functionId o)
        (Message.invoke mid functionId args oneWay)).2.head? =
      some (Event.call o args) := by
  have hOM : (registerRelease s functionId o).objectMap = s.objectMap := by
    simp [registerRelease, (heapSetSrpcId_frame s o Option.none).1]
  have hDead : (registerRelease s functionId o).dead = s.dead := by
    simp [registerRelease, (heapSetSrpcId_frame s o Option.none).2.1]
  refine ⟨hOM, ?_, ?_, ?_, ?_⟩
  · simp only [registerRelease]
    exact aget_adel_self _ _
  · intro q hq
    simp only [registerRelease] at hq
    have := (List.mem_filter.mp hq).2
    simpa using this
  · intro dd hdd
    simp only [heapGet] at hdd
    simp only [registerRelease, heapGet, heapSetSrpcId, hdd]
    exact aget_aset_self _ _ _
  · have hderef : derefO (registerRelease s functionId o) functionId = some o := by
      simp [derefO, hOM, hDead, hmap, halive]
    simp only [insertMessage, hderef, mapState_stub_plain _ hplain]
    cases oneWay <;> cases hc : callOutcome o args <;> simp only [hc] <;>
      (try split) <;> (try split) <;> rfl

/-- Witness for C10: after releasing the handle for `f`, an invoke for `f`
still reaches the live procedure object `0`. -/
theorem c10_release_handle_witness :
    (insertMessage "c" false (fun _ _ => Except.ok Value.null) (fun _ => Option.none)
        (registerRelease { heap := [(0, { srpcId := some "f", isFunction := true })], nextObj := 1, objectMap := [("f", 0)], functionRegistry := [("f", 0)], frArmed := [(0, "f")] } "f" 0)
        (Message.invoke "m1" "f" [Value.num 3] false)).2.head? =
      some (Event.call 0 [Value.num 3]) :=
  (c10_release_handle "c" false (fun _ _ => Except.ok Value.null) (fun _ => Option.none)
    { heap := [(0, { srpcId := some "f", isFunction := true })], nextObj := 1, objectMap := [("f", 0)], functionRegistry := [("f", 0)], frArmed := [(0, "f")] }
    "f" "m1" 0 [Value.num 3] false rfl (by decide) (by decide)).2.2.2.2

/-- Claim C6: `invoke` registers the completion primitive in
`invocations` under the freshly allocated `messageId` strictly before the
send callback runs: the pre-send state already contains the entry, and
consequently `invoke`'s behaviour depends on the send callback only
through its values on states in which the entry is present — so a reply
delivered synchronously during the send callback finds its `invocations`
entry. -/
theorem c6_insert_before_send (pst : Bool) (s : State) (functionId : String)
    (args : List Value) (send₁ send₂ : State → Message → SendResult)
    (h : ∀ st m, (aget (uuid s.nextMsg) st.invocations).isSome = true →
      send₁ st m = send₂ st m) :
    aget (uuid s.nextMsg) (invokePrepare s functionId args).1.invocations =
      some (invokePrepare s functionId args).2.2.1 ∧
    invoke pst send₁ s functionId args = invoke pst send₂ s functionId args := by
  have hin : aget (uuid s.nextMsg) (invokePrepare s functionId args).1.invocations =
      some (invokePrepare s functionId args).2.2.1 := by
    simp only [invokePrepare]
    exact aget_aset_self _ _ _
  refine ⟨hin, ?_⟩
  have hsend := h (invokePrepare s functionId args).1 (invokePrepare s functionId args).2.2.2
    (by rw [hin]; rfl)
  simp only [invoke]
  rw [hsend]

/-- Witness for C6 at a concrete call: the pre-send state of
`invoke("f", 7)` on a fresh controller tracks the deferred under the
fresh message identifier. -/
theorem c6_insert_before_send_witness :
    aget (uuid 0) (invokePrepare {} "f" [Value.num 7]).1.invocations = some 0 :=
  (c6_insert_before_send false {} "f" [Value.num 7]
    (fun _ _ => SendResult.fireAndForget) (fun _ _ => SendResult.fireAndForget)
    (fun _ _ _ => rfl)).1

/-- Claim C7: when the send callback throws synchronously, the error
propagates to the caller out of both `invoke` and `invokeOneWay`, and in
the `invoke` case the `invocations` entry registered under the fresh
`messageId` is removed again before rethrowing, leaving `invocations`
exactly as before the call (`invokeOneWay` never touches it). -/
theorem c7_send_throw_cleanup (pst : Bool) (s : State) (functionId : String)
    (args : List Value) (e : ErrObj) (send : State → Message → SendResult)
    (hfresh : aget (uuid s.nextMsg) s.invocations = Option.none)
    (h1 : send (invokePrepare s functionId args).1 (invokePrepare s functionId args).2.2.2 =
      SendResult.thrown e)
    (h2 : send (invokeOneWayPrepare s functionId args).1
        (invokeOneWayPrepare s functionId args).2 = SendResult.thrown e) :
    (invoke pst send s functionId args).2.2 = InvokeOutcome.threw e ∧
    (invoke pst send s functionId args).1.invocations = s.invocations ∧
    (invokeOneWay send s functionId args).2.2 = some e ∧
    (invokeOneWay send s functionId args).1.invocations = s.invocations := by
  have hmap : (mapState tryRegisterSpecialObject { s with nextMsg := s.nextMsg + 1 }
      args).1.invocations = s.invocations :=
    (mapState_special_frame { s with nextMsg := s.nextMsg + 1 } args).1
  refine ⟨?_, ?_, ?_, ?_⟩
  · simp only [invoke, h1]
  · simp only [invoke, h1]
    simp only [invokePrepare]
    rw [hmap]
    exact adel_aset_fresh _ hfresh
  · simp only [invokeOneWay, h2]
  · simp only [invokeOneWay, h2]
    simp only [invokeOneWayPrepare]
    exact hmap

/-- Witness for C7: a send callback that always throws makes a concrete
`invoke` rethrow the error and leave `invocations` empty. -/
theorem c7_send_throw_cleanup_witness :
    (invoke false (fun _ _ => SendResult.thrown (newError "boom")) {} "f" [Value.num 1]).2.2 =
      InvokeOutcome.threw (newError "boom") ∧
    (invoke false (fun _ _ => SendResult.thrown (newError "boom")) {} "f"
        [Value.num 1]).1.invocations = ([] : List (String × Nat)) :=
  ⟨(c7_send_throw_cleanup false {} "f" [Value.num 1] (newError "boom")
      (fun _ _ => SendResult.thrown (newError "boom")) rfl rfl rfl).1,
   (c7_send_throw_cleanup false {} "f" [Value.num 1] (newError "boom")
      (fun _ _ => SendResult.thrown (newError "boom")) rfl rfl rfl).2.1⟩

/-- Claim C3: when the send callback answers `invoke` with a future of a
message, `invoke` awaits it and removes the `invocations` entry again (the
tracker ends as it started), and then interprets the response: a `result`
with the matching `messageId` resolves with the import-transformed result,
an `error` with the matching `messageId` throws the reconstructed error, a
`none` with the matching `messageId` resolves with the `undefined`
sentinel, and any other kind — or any `messageId` other than the outgoing
one — makes `invoke` fail with the `Unexpected response` error. -/
theorem c3_waitable_response (pst : Bool) (s : State) (functionId : String)
    (args : List Value) (m : Message) (send : State → Message → SendResult)
    (hfresh : aget (uuid s.nextMsg) s.invocations = Option.none)
    (hsend : send (invokePrepare s functionId args).1
        (invokePrepare s functionId args).2.2.2 = SendResult.waitable m) :
    (invoke pst send s functionId args).1.invocations = s.invocations ∧
    (∀ r, m = Message.result (uuid s.nextMsg) r →
      (invoke pst send s functionId args).2.2 = InvokeOutcome.ok
        (tryRegisterStubObject
          { (invokePrepare s functionId args).1 with
              invocations := adel (uuid s.nextMsg)
                (invokePrepare s functionId args).1.invocations } r).2) ∧
    (∀ e, m = Message.error (uuid s.nextMsg) e →
      (invoke pst send s functionId args).2.2 =
        InvokeOutcome.threw (reconstructError pst e)) ∧
    (m = Message.none (uuid s.nextMsg) →
      (invoke pst send s functionId args).2.2 = InvokeOutcome.ok Value.undef) ∧
    ((m.mid ≠ uuid s.nextMsg ∨ m.kindStr = "invoke" ∨ m.kindStr = "purge") →
      (invoke pst send s functionId args).2.2 =
        InvokeOutcome.threw (unexpectedResponse m.kindStr (uuid s.nextMsg))) := by
  have hmid : (invokePrepare s functionId args).2.1 = uuid s.nextMsg := by
    simp only [invokePrepare]
  have hS4 : adel (invokePrepare s functionId args).2.1
      (invokePrepare s functionId args).1.invocations = s.invocations := by
    simp only [invokePrepare]
    rw [(mapState_special_frame { s with nextMsg := s.nextMsg + 1 } args).1]
    exact adel_aset_fresh _ hfresh
  refine ⟨?_, ?_, ?_, ?_, ?_⟩
  · simp only [invoke, hsend]
    cases m with
    | invoke mid2 fid2 a2 ow => exact hS4
    | purge mid2 fid2 => exact hS4
    | result mid2 r =>
      dsimp only
      by_cases hm : mid2 = (invokePrepare s functionId args).2.1
      · rw [if_pos hm]
        exact ((tryRegisterStubObject_frame _ r).1).trans hS4
      · rw [if_neg hm]
        exact hS4
    | error mid2 e =>
      dsimp only
      by_cases hm : mid2 = (invokePrepare s functionId args).2.1
      · rw [if_pos hm]
        exact hS4
      · rw [if_neg hm]
        exact hS4
    | none mid2 =>
      dsimp only
      by_cases hm : mid2 = (invokePrepare s functionId args).2.1
      · rw [if_pos hm]
        exact hS4
      · rw [if_neg hm]
        exact hS4
  · intro r hm
    subst hm
    simp only [invoke, hsend, hmid, if_pos]
  · intro e hm
    subst hm
    simp only [invoke, hsend, hmid, if_pos]
  · intro hm
    subst hm
    simp only [invoke, hsend, hmid, if_pos]
  · intro h
    simp only [invoke, hsend]
    cases m with
    | invoke mid2 fid2 a2 ow => simp [Message.kindStr, hmid]
    | purge mid2 fid2 => simp [Message.kindStr, hmid]
    | result mid2 r =>
      rcases h with hne | hk | hk
      · simp only [Message.mid] at hne
        rw [hmid]
        dsimp only
        rw [if_neg hne]
        simp [Message.kindStr, hmid]
      · simp [Message.kindStr] at hk
      · simp [Message.kindStr] at hk
    | error mid2 e =>
      rcases h with hne | hk | hk
      · simp only [Message.mid] at hne
        rw [hmid]
        dsimp only
        rw [if_neg hne]
        simp [Message.kindStr, hmid]
      · simp [Message.kindStr] at hk
      · simp [Message.kindStr] at hk
    | none mid2 =>
      rcases h with hne | hk | hk
      · simp only [Message.mid] at hne
        rw [hmid]
        dsimp only
        rw [if_neg hne]
        simp [Message.kindStr, hmid]
      · simp [Message.kindStr] at hk
      · simp [Message.kindStr] at hk

/-- Witness for C3: a waitable send answering with a matching result
message makes a concrete `invoke` return that result and leave the
invocation tracker empty. -/
theorem c3_waitable_response_witness :
    (invoke false (fun _ _ => SendResult.waitable (Message.result "uuid-0" (Value.num 5)))
        {} "f" []).2.2 = InvokeOutcome.ok (Value.num 5) ∧
    (invoke false (fun _ _ => SendResult.waitable (Message.result "uuid-0" (Value.num 5)))
        {} "f" []).1.invocations = ([] : List (String × Nat)) :=
  ⟨((c3_waitable_response false {} "f" [] (Message.result "uuid-0" (Value.num 5))
      (fun _ _ => SendResult.waitable (Message.result "uuid-0" (Value.num 5))) rfl rfl).2.1
      (Value.num 5) (by decide)).trans (by decide),
   (c3_waitable_response false {} "f" [] (Message.result "uuid-0" (Value.num 5))
      (fun _ _ => SendResult.waitable (Message.result "uuid-0" (Value.num 5))) rfl rfl).1⟩

/-- Claim C1: for every incoming result or error message, both dispatcher
variants settle exactly the pending invocation tracked under the
message's `messageId`: that entry is removed, its deferred is resolved
with the import-transformed result (or rejected with the reconstructed
error), every other tracked invocation and every other deferred is left
unchanged, and when no entry exists under the `messageId` the controller
only logs a warning and changes no state.  The waitable variant performs
the same table updates and echoes the message back. -/
theorem c1_response_correlation (cid : String) (pst : Bool)
    (callOutcome : Nat → List Value → Except ErrObj Value)
    (sendOutcome : Message → Option ErrObj)
    (s : State) (mid : String) (r : Value) (e : ErrObj) :
    (∀ did, aget mid s.invocations = some did →
      ((insertMessage cid pst callOutcome sendOutcome s (Message.result mid r)).2 = [] ∧
       aget mid (insertMessage cid pst callOutcome sendOutcome s
          (Message.result mid r)).1.invocations = Option.none ∧
       (∀ k, k ≠ mid → aget k (insertMessage cid pst callOutcome sendOutcome s
          (Message.result mid r)).1.invocations = aget k s.invocations) ∧
       (∀ dd, aget did s.deferreds = some dd → dd.status = DStatus.pending →
         aget did (insertMessage cid pst callOutcome sendOutcome s
            (Message.result mid r)).1.deferreds =
           some { dd with status := DStatus.resolved (tryRegisterStubObject { s with invocations := adel mid s.invocations } r).2 }) ∧
       (∀ d2, d2 ≠ did → aget d2 (insertMessage cid pst callOutcome sendOutcome s
          (Message.result mid r)).1.deferreds = aget d2 s.deferreds))) ∧
    (aget mid s.invocations = Option.none →
      insertMessage cid pst callOutcome sendOutcome s (Message.result mid r) =
        (s, [Event.warn ("Failed examine result message: messageId=" ++ mid)])) ∧
    (∀ did, aget mid s.invocations = some did →
      ((insertMessage cid pst callOutcome sendOutcome s (Message.error mid e)).2 = [] ∧
       aget mid (insertMessage cid pst callOutcome sendOutcome s
          (Message.error mid e)).1.invocations = Option.none ∧
       (∀ k, k ≠ mid → aget k (insertMessage cid pst callOutcome sendOutcome s
          (Message.error mid e)).1.invocations = aget k s.invocations) ∧
       (∀ dd, aget did s.deferreds = some dd → dd.status = DStatus.pending →
         aget did (insertMessage cid pst callOutcome sendOutcome s
            (Message.error mid e)).1.deferreds =
           some { dd with status := DStatus.rejected (reconstructError pst e) }) ∧
       (∀ d2, d2 ≠ did → aget d2 (insertMessage cid pst callOutcome sendOutcome s
          (Message.error mid e)).1.deferreds = aget d2 s.deferreds))) ∧
    (aget mid s.invocations = Option.none →
      insertMessage cid pst callOutcome sendOutcome s (Message.error mid e) =
        (s, [Event.warn ("Failed examine error message: messageId=" ++ mid)])) ∧
    (insertMessageWaitable cid pst callOutcome s (Message.result mid r)).1 =
      (insertMessage cid pst callOutcome sendOutcome s (Message.result mid r)).1 ∧
    (insertMessageWaitable cid pst callOutcome s (Message.result mid r)).2.2 =
      Message.result mid r ∧
    (insertMessageWaitable cid pst callOutcome s (Message.error mid e)).1 =
      (insertMessage cid pst callOutcome sendOutcome s (Message.error mid e)).1 ∧
    (insertMessageWaitable cid pst callOutcome s (Message.error mid e)).2.2 =
      Message.error mid e := by
  refine ⟨?_, ?_, ?_, ?_, rfl, rfl, rfl, rfl⟩
  · intro did h
    have hd : insertMessage cid pst callOutcome sendOutcome s (Message.result mid r) =
        ({ (tryRegisterStubObject { s with invocations := adel mid s.invocations } r).1 with
            deferreds := settleDef
              (tryRegisterStubObject { s with
                invocations := adel mid s.invocations } r).1.deferreds
              did (DStatus.resolved
                (tryRegisterStubObject { s with
                  invocations := adel mid s.invocations } r).2) },
         ([] : List Event)) := by
      simp only [insertMessage, dispatchResult, h]
    rw [hd]
    have hfr := tryRegisterStubObject_frame { s with invocations := adel mid s.invocations } r
    refine ⟨rfl, ?_, ?_, ?_, ?_⟩
    · show aget mid (tryRegisterStubObject { s with
        invocations := adel mid s.invocations } r).1.invocations = Option.none
      rw [hfr.1]
      exact aget_adel_self _ _
    · intro k hk
      show aget k (tryRegisterStubObject { s with
        invocations := adel mid s.invocations } r).1.invocations = aget k s.invocations
      rw [hfr.1]
      exact aget_adel_ne _ hk
    · intro dd hdd hp
      have hdd2 : aget did (tryRegisterStubObject { s with
          invocations := adel mid s.invocations } r).1.deferreds = some dd := by
        rw [hfr.2.1]
        exact hdd
      exact aget_settleDef_pending _ hdd2 hp
    · intro d2 hne
      show aget d2 (settleDef _ did _) = aget d2 s.deferreds
      rw [aget_settleDef_ne _ hne, hfr.2.1]
  · intro h
    simp only [insertMessage, dispatchResult, h]
  · intro did h
    have hd : insertMessage cid pst callOutcome sendOutcome s (Message.error mid e) =
        ({ { s with invocations := adel mid s.invocations } with
            deferreds := settleDef
              ({ s with invocations := adel mid s.invocations } : State).deferreds
              did (DStatus.rejected (reconstructError pst e)) },
         ([] : List Event)) := by
      simp only [insertMessage, dispatchError, h]
    rw [hd]
    refine ⟨rfl, ?_, ?_, ?_, ?_⟩
    · exact aget_adel_self _ _
    · intro k hk
      exact aget_adel_ne _ hk
    · intro dd hdd hp
      exact aget_settleDef_pending _ hdd hp
    · intro d2 hne
      exact aget_settleDef_ne _ hne
  · intro h
    simp only [insertMessage, dispatchError, h]

/-- Witness for C1: a result message for the tracked invocation `m`
removes the entry and resolves its deferred; a result message arriving at
an empty controller only logs a warning and changes nothing. -/
theorem c1_response_correlation_witness :
    aget "m" (insertMessage "c" false (fun _ _ => Except.ok Value.null) (fun _ => Option.none)
        { invocations := [("m", 0)], deferreds := [(0, {})] }
        (Message.result "m" Value.null)).1.invocations = Option.none ∧
    aget 0 (insertMessage "c" false (fun _ _ => Except.ok Value.null) (fun _ => Option.none)
        { invocations := [("m", 0)], deferreds := [(0, {})] }
        (Message.result "m" Value.null)).1.deferreds =
      some { signal := Option.none, status := DStatus.resolved Value.null } ∧
    insertMessage "c" false (fun _ _ => Except.ok Value.null) (fun _ => Option.none) {}
        (Message.result "m" Value.null) =
      ({}, [Event.warn ("Failed examine result message: messageId=" ++ "m")]) :=
  ⟨((c1_response_correlation "c" false (fun _ _ => Except.ok Value.null) (fun _ => Option.none)
      { invocations := [("m", 0)], deferreds := [(0, {})] } "m" Value.null
      (newError "x")).1 0 rfl).2.1,
   (((c1_response_correlation "c" false (fun _ _ => Except.ok Value.null) (fun _ => Option.none)
      { invocations := [("m", 0)], deferreds := [(0, {})] } "m" Value.null
      (newError "x")).1 0 rfl).2.2.2.1 {} rfl rfl).trans (by decide),
   (c1_response_correlation "c" false (fun _ _ => Except.ok Value.null) (fun _ => Option.none)
      {} "m" Value.null (newError "x")).2.1 rfl⟩

theorem mapState_append (f : State → Value → State × Value) (s : State)
    (l1 l2 : List Value) :
    mapState f s (l1 ++ l2) =
      ((mapState f (mapState f s l1).1 l2).1,
       (mapState f s l1).2 ++ (mapState f (mapState f s l1).1 l2).2) := by
  induction l1 generalizing s with
  | nil => simp [mapState]
  | cons v t ih => simp [mapState, ih]

theorem aget_fireMap {ds : List (Nat × DeferredState)} {did : Nat} {dd : DeferredState}
    (o : Nat) (h : aget did ds = some dd) :
    aget did (ds.map fun p =>
      if p.2.signal = some o ∧ p.2.status = DStatus.pending then
        (p.1, { p.2 with status := DStatus.rejected cancelError }) else p) =
      some (if dd.signal = some o ∧ dd.status = DStatus.pending then
        { dd with status := DStatus.rejected cancelError } else dd) := by
  induction ds with
  | nil => simp [aget] at h
  | cons p t ih =>
    by_cases hk : p.1 = did
    · have hpd : p.2 = dd := by simpa [aget, hk] using h
      by_cases hc : p.2.signal = some o ∧ p.2.status = DStatus.pending
      · rw [List.map_cons, if_pos hc]
        simp [aget, hk, hpd, hpd ▸ hc]
      · rw [List.map_cons, if_neg hc]
        rw [hpd] at hc
        simp [aget, hk, hpd, hc]
    · have h2 : aget did t = some dd := by simpa [aget, hk] using h
      by_cases hc : p.2.signal = some o ∧ p.2.status = DStatus.pending
      · rw [List.map_cons, if_pos hc]
        simp only [aget, hk, if_neg]
        exact ih h2
      · rw [List.map_cons, if_neg hc]
        simp only [aget, hk, if_neg]
        exact ih h2

theorem fireSignal_invocations (so : Message → Option ErrObj) (st : State) (o : Nat) :
    (fireSignal so st o).1.invocations = st.invocations := by
  unfold fireSignal
  cases h : heapGet st o with
  | none => simp
  | some d =>
    cases hl : d.abortListenerId with
    | none => simp [hl]
    | some id =>
      cases hs : so (Message.invoke (uuid st.nextMsg) id [] true) <;> simp [hl, hs]

theorem fireSignal_deferreds (so : Message → Option ErrObj) (st : State) (o : Nat) :
    (fireSignal so st o).1.deferreds = st.deferreds.map fun p =>
      if p.2.signal = some o ∧ p.2.status = DStatus.pending then
        (p.1, { p.2 with status := DStatus.rejected cancelError }) else p := by
  unfold fireSignal
  cases h : heapGet st o with
  | none => simp
  | some d =>
    cases hl : d.abortListenerId with
    | none => simp [hl]
    | some id =>
      cases hs : so (Message.invoke (uuid st.nextMsg) id [] true) <;> simp [hl, hs]

theorem fireSignal_sends (so : Message → Option ErrObj) (st : State) (o : Nat)
    (m2 : Message) (hm : Event.send m2 ∈ (fireSignal so st o).2) :
    ∃ mid2 lid, m2 = Message.invoke mid2 lid [] true := by
  unfold fireSignal at hm
  cases h : heapGet st o with
  | none => simp [h] at hm
  | some d =>
    cases hl : d.abortListenerId with
    | none => simp [h, hl] at hm
    | some id =>
      cases hs : so (Message.invoke (uuid st.nextMsg) id [] true) <;>
        simp [h, hl, hs] at hm <;>
        exact ⟨uuid st.nextMsg, id, hm⟩

/-- Claim C9 counterexample: an `invoke` carrying an `AbortSignal`
argument is left pending by a fire-and-forget send; when the signal then
fires, the completion primitive does reject with the cancellation-kind
error, but the outstanding `invocations` entry for the `messageId` is NOT
removed — no code deletes it on cancellation, so it is still present
after the fire. -/
theorem c9_cancellation_counterexample :
    aget "uuid-0" (invoke false (fun _ _ => SendResult.fireAndForget)
        { heap := [(0, { isAbortSignal := true })], nextObj := 1 } "f"
        [Value.obj 0]).1.invocations = some 0 ∧
    aget "uuid-0" (fireSignal (fun _ => Option.none)
        (invoke false (fun _ _ => SendResult.fireAndForget)
          { heap := [(0, { isAbortSignal := true })], nextObj := 1 } "f"
          [Value.obj 0]).1 0).1.invocations = some 0 ∧
    aget 0 (fireSignal (fun _ => Option.none)
        (invoke false (fun _ _ => SendResult.fireAndForget)
          { heap := [(0, { isAbortSignal := true })], nextObj := 1 } "f"
          [Value.obj 0]).1 0).1.deferreds =
      some { signal := some 0, status := DStatus.rejected cancelError } := by
  decide

/-- Claim C9 (amended): for every invoke carrying a caller-supplied
cancellation token among its arguments (left pending by a fire-and-forget
send), firing the token rejects the completion primitive with the
cancellation-kind error, and the only messages sent to the peer at fire
time are one-way invokes through the cancel-descriptor pathway; the
outstanding `invocations` entry, however, is NOT removed when the token
fires — it survives the firing untouched. -/
theorem c9_cancellation (pst : Bool) (so : Message → Option ErrObj)
    (s : State) (functionId : String) (vs : List Value) (o : Nat) (d : ObjData)
    (hplain : ∀ v ∈ vs, v.isPlain = true)
    (hd : heapGet s o = some d)
    (hsig : d.isAbortSignal = true) (hfun : d.isFunction = false)
    (hmark : d.srpcId = Option.none)
    (hfreshD : aget s.nextDef s.deferreds = Option.none) :
    (invoke pst (fun _ _ => SendResult.fireAndForget) s functionId
        (vs ++ [Value.obj o])).2.2 = InvokeOutcome.pending s.nextDef ∧
    aget (uuid s.nextMsg) (invoke pst (fun _ _ => SendResult.fireAndForget) s functionId
        (vs ++ [Value.obj o])).1.invocations = some s.nextDef ∧
    (fireSignal so (invoke pst (fun _ _ => SendResult.fireAndForget) s functionId
        (vs ++ [Value.obj o])).1 o).1.invocations =
      (invoke pst (fun _ _ => SendResult.fireAndForget) s functionId
        (vs ++ [Value.obj o])).1.invocations ∧
    aget s.nextDef (fireSignal so (invoke pst (fun _ _ => SendResult.fireAndForget) s functionId
        (vs ++ [Value.obj o])).1 o).1.deferreds =
      some { signal := some o, status := DStatus.rejected cancelError } ∧
    (∀ m2, Event.send m2 ∈ (fireSignal so (invoke pst (fun _ _ => SendResult.fireAndForget) s
        functionId (vs ++ [Value.obj o])).1 o).2 →
      ∃ mid2 lid, m2 = Message.invoke mid2 lid [] true) := by
  have hext : extractAbortSignal s (vs ++ [Value.obj o]) = some o := by
    simp [extractAbortSignal, isAbortSignalV, hd, hsig]
  have hd1 : heapGet { s with nextMsg := s.nextMsg + 1 } o = some d := hd
  have hexp : tryRegisterSpecialObject { s with nextMsg := s.nextMsg + 1 } (Value.obj o) =
      ({ s with
          nextMsg := s.nextMsg + 1 + 1,
          heap := aset o { d with srpcId := some (uuid (s.nextMsg + 1)), abortListenerId := some (uuid (s.nextMsg + 1)) } s.heap,
          objectMap := aset (uuid (s.nextMsg + 1)) o s.objectMap,
          frArmed := s.frArmed ++ [(o, uuid (s.nextMsg + 1))] },
       Value.abortDesc (uuid (s.nextMsg + 1))) := by
    simp [tryRegisterSpecialObject, hd1, hfun, hsig, hmark, truthy, exportFreshSig]
  have hmapArgs : mapState tryRegisterSpecialObject { s with nextMsg := s.nextMsg + 1 }
      (vs ++ [Value.obj o]) =
      ({ s with
          nextMsg := s.nextMsg + 1 + 1,
          heap := aset o { d with srpcId := some (uuid (s.nextMsg + 1)), abortListenerId := some (uuid (s.nextMsg + 1)) } s.heap,
          objectMap := aset (uuid (s.nextMsg + 1)) o s.objectMap,
          frArmed := s.frArmed ++ [(o, uuid (s.nextMsg + 1))] },
       vs ++ [Value.abortDesc (uuid (s.nextMsg + 1))]) := by
    rw [mapState_append, mapState_special_plain _ hplain]
    simp [mapState, hexp]
  have hinv : invoke pst (fun _ _ => SendResult.fireAndForget) s functionId
      (vs ++ [Value.obj o]) =
      ({ heap := aset o { d with srpcId := some (uuid (s.nextMsg + 1)), abortListenerId := some (uuid (s.nextMsg + 1)) } s.heap,
         nextObj := s.nextObj,
         nextMsg := s.nextMsg + 1 + 1,
         nextDef := s.nextDef + 1,
         objectMap := aset (uuid (s.nextMsg + 1)) o s.objectMap,
         dead := s.dead,
         functionRegistry := s.functionRegistry,
         invocations := aset (uuid s.nextMsg) s.nextDef s.invocations,
         deferreds := s.deferreds ++ [(s.nextDef, { signal := some o, status := DStatus.pending })],
         frArmed := s.frArmed ++ [(o, uuid (s.nextMsg + 1))] },
       [Event.send (Message.invoke (uuid s.nextMsg) functionId (vs ++ [Value.abortDesc (uuid (s.nextMsg + 1))]) false)],
       InvokeOutcome.pending s.nextDef) := by
    simp [invoke, invokePrepare, hext, hmapArgs]
  refine ⟨?_, ?_, ?_, ?_, ?_⟩
  · rw [hinv]
  · rw [hinv]
    exact aget_aset_self _ _ _
  · rw [hinv]
    exact fireSignal_invocations so _ o
  · rw [hinv, fireSignal_deferreds]
    have hag : aget s.nextDef (s.deferreds ++
        [(s.nextDef, ({ signal := some o, status := DStatus.pending } : DeferredState))]) =
        some { signal := some o, status := DStatus.pending } := by
      rw [aget_append_of_none _ hfreshD]
      simp [aget]
    rw [aget_fireMap o hag]
    simp
  · intro m2 hm
    exact fireSignal_sends so _ o m2 hm

/-- Witness for the amended C9: firing the exported signal rejects the
concrete pending deferred with the cancellation-kind error. -/
theorem c9_cancellation_witness :
    aget 0 (fireSignal (fun _ => Option.none)
        (invoke false (fun _ _ => SendResult.fireAndForget)
          { heap := [(0, { isAbortSignal := true })], nextObj := 1 } "g"
          ([] ++ [Value.obj 0])).1 0).1.deferreds =
      some { signal := some 0, status := DStatus.rejected cancelError } :=
  (c9_cancellation false (fun _ => Option.none)
    { heap := [(0, { isAbortSignal := true })], nextObj := 1 } "g" [] 0
    { isAbortSignal := true } (by simp) rfl rfl rfl rfl rfl).2.2.2.1

theorem foldl_settle_preserve (st : DStatus) (l : List Nat)
    {ds : List (Nat × DeferredState)} {did : Nat} {dd : DeferredState}
    (h : aget did ds = some dd) (hp : dd.status ≠ DStatus.pending) :
    aget did (l.foldl (fun a x => settleDef a x st) ds) = some dd := by
  induction l generalizing ds with
  | nil => exact h
  | cons x t ih =>
    by_cases hx : x = did
    · subst hx
      exact ih (aget_settleDef_stable st h hp)
    · exact ih (by rw [aget_settleDef_ne st (fun hh => hx hh.symm)]; exact h)

theorem foldl_settle_pending (e : ErrObj) (l : List Nat)
    {ds : List (Nat × DeferredState)} {did : Nat} {dd : DeferredState}
    (hmem : did ∈ l) (h : aget did ds = some dd) (hp : dd.status = DStatus.pending) :
    aget did (l.foldl (fun a x => settleDef a x (DStatus.rejected e)) ds) =
      some { dd with status := DStatus.rejected e } := by
  induction l generalizing ds dd with
  | nil => cases hmem
  | cons x t ih =>
    by_cases hx : x = did
    · subst hx
      have h1 := aget_settleDef_pending (DStatus.rejected e) h hp
      exact foldl_settle_preserve _ t h1 (by simp)
    · rcases List.mem_cons.mp hmem with h2 | h2
      · exact absurd h2.symm hx
      · exact ih h2 (by rw [aget_settleDef_ne _ (fun hh => hx hh.symm)]; exact h) hp

/-- Claim C5 counterexample: a controller state holding only an imported
stub (armed for finalization but not in the registry) and then released
still has that finalization watch armed — `release` disarms only the
watches of the snapshotted registry values — and an `invoke` issued after
`release` inserts an entry into `invocations` that stays there with a
fire-and-forget send.  So neither "disarms all finalization watches" nor
"further invokes do not leak entries into invocations" holds. -/
theorem c5_release_counterexample :
    (release (tryRegisterStubObject {} (Value.funDesc "a")).1).frArmed = [(0, "a")] ∧
    (invoke false (fun _ _ => SendResult.fireAndForget)
        (release (tryRegisterStubObject {} (Value.funDesc "a")).1) "f" []).1.invocations ≠
      ([] : List (String × Nat)) := by
  decide

/-- Claim C5 (amended): `release` snapshots the registry and the pending
invocations, clears the registry, object table and invocations tables,
disarms the finalization watches of the snapshotted registry procedures —
watches armed for objects held only in the object table (imported stubs,
exported signals) remain armed — and rejects every previously pending
invocation with the `Controller released` error.  `invoke` behaves after
`release` exactly as before it, so a fire-and-forget invoke issued after
`release` registers a fresh entry in `invocations` (which nothing
removes). -/
theorem c5_release (s : State) :
    (release s).functionRegistry = [] ∧
    (release s).objectMap = [] ∧
    (release s).invocations = [] ∧
    (∀ p ∈ s.frArmed, p.1 ∉ s.functionRegistry.map (fun q => q.2) →
      p ∈ (release s).frArmed) ∧
    (∀ p ∈ s.frArmed, p.1 ∈ s.functionRegistry.map (fun q => q.2) →
      p ∉ (release s).frArmed) ∧
    (∀ mid did, aget mid s.invocations = some did →
      ∀ dd, aget did s.deferreds = some dd → dd.status = DStatus.pending →
        aget did (release s).deferreds =
          some { dd with status := DStatus.rejected (newError "Controller released") }) ∧
    (∀ functionId args,
      aget (uuid s.nextMsg) (invoke false (fun _ _ => SendResult.fireAndForget)
        (release s) functionId args).1.invocations = some s.nextDef) := by
  refine ⟨rfl, rfl, rfl, ?_, ?_, ?_, ?_⟩
  · intro p hp hnot
    show p ∈ s.frArmed.filter fun q => !decide (q.1 ∈ s.functionRegistry.map fun q2 => q2.2)
    exact List.mem_filter.mpr ⟨hp, by simp [hnot]⟩
  · intro p hp hin hmem
    have hmem2 : p ∈ s.frArmed.filter
        fun q => !decide (q.1 ∈ s.functionRegistry.map fun q2 => q2.2) := hmem
    have := (List.mem_filter.mp hmem2).2
    simp [hin] at this
  · intro mid did h dd hdd hp
    have hmem : did ∈ s.invocations.map fun q => q.2 :=
      List.mem_map_of_mem _ (aget_mem h)
    exact foldl_settle_pending (newError "Controller released") _ hmem hdd hp
  · intro functionId args
    simp only [invoke, invokePrepare]
    rw [(mapState_special_frame _ args).1, (mapState_special_frame _ args).2.2.1]
    exact aget_aset_self _ _ _

/-- Witness for the amended C5: releasing a controller with one pending
invocation rejects its deferred with `Controller released`, and an invoke
issued right after the release registers a fresh `invocations` entry. -/
theorem c5_release_witness :
    aget 0 (release { invocations := [("m", 0)], deferreds := [(0, {})], frArmed := [(1, "b")] }).deferreds =
      some { signal := Option.none, status := DStatus.rejected (newError "Controller released") } ∧
    aget (uuid 0) (invoke false (fun _ _ => SendResult.fireAndForget)
        (release { invocations := [("m", 0)], deferreds := [(0, {})], frArmed := [(1, "b")] })
        "f" []).1.invocations = some 0 :=
  ⟨(c5_release { invocations := [("m", 0)], deferreds := [(0, {})], frArmed := [(1, "b")] }).2.2.2.2.2.1
      "m" 0 rfl {} rfl rfl,
   (c5_release { invocations := [("m", 0)], deferreds := [(0, {})], frArmed := [(1, "b")] }).2.2.2.2.2.2
      "f" []⟩
